import Mathlib

/-!
Verification of the chat-matcher matching and room-lifecycle engine.

Shallow embedding of the Go sources under `handler/`:
  * `handler/types.go`   : user states, user kinds, rooms, messages
  * `handler/matcher.go` : `Matcher` with `RequestMatch`, `CancelMatch`,
                           `MatchWithAI`, `CheckUserState`
  * `handler/room.go`    : `RoomManager` with `CreateRoom`, `CreateAIRoom`,
                           `JoinRoom`, `handleMessages`, `cleanupUser`,
                           and the per-room relay loop `Room.Run`
  * `handler/server.go`  : the pairing-request handler `match`

Go maps are embedded as association lists with unique keys (updates keep the
first binding, deletes remove it); map iteration is embedded as iteration in
list order.  `rand.Intn n` is embedded by taking an oracle `rnd : Nat` and
using `rnd % n`, which ranges over exactly the values `rand.Intn` can return.
Websocket connections are opaque handles `Option Nat` (`none` is Go `nil`).
Storage-gateway calls are best-effort side effects; the embedding records the
session bookkeeping (`CreateChatSession` / `EndChatSession`) and the match
counters (`IncrementMatchCount`) as logs in the state.
-/

namespace ChatMatcher

/-- `UserState` from types.go: idle / matching / chatting. -/
inductive UserState where
  | idle
  | matching
  | chatting
deriving DecidableEq, Repr

/-- `UserType` from types.go: human or AI participant. -/
inductive UserType where
  | human
  | ai
deriving DecidableEq, Repr

/-- `User` from types.go: identifier, participant kind, and an optional live
websocket handle (`Conn *websocket.Conn`, `none` = Go `nil`). -/
structure User where
  id : String
  type : UserType
  conn : Option Nat
deriving DecidableEq, Repr

/-- `Room` from types.go: id, participant map (association list keyed by the
participant id, unique keys), and the relay channel, of which we track only
whether `close(room.MsgChan)` has happened. -/
structure Room where
  ID : String
  Users : List User
  chanClosed : Bool
deriving DecidableEq, Repr

/-- `Message` from types.go (`Type` is a Lean keyword, so the content-kind
field is called `msgType`; timestamps are omitted — no claim mentions them). -/
structure Message where
  ID : String
  From : String
  Content : String
  msgType : String
  RoomID : String
deriving DecidableEq, Repr

/-- `MatchResponse` from types.go: the pairing-request output
`{matched, room_id, partner_id}`. -/
structure MatchResponse where
  Matched : Bool
  RoomID : String
  Partner : String
deriving DecidableEq, Repr

/-! ### Association lists standing in for Go maps -/

/-- Go map read `l[k]` (with its presence bit). -/
def alookup {α : Type} (l : List (String × α)) (k : String) : Option α :=
  match l with
  | [] => none
  | (k1, v1) :: rest => if k1 = k then some v1 else alookup rest k

/-- Go map write `l[k] = v`: replace the binding if present, else append. -/
def aset {α : Type} (l : List (String × α)) (k : String) (v : α) :
    List (String × α) :=
  match l with
  | [] => [(k, v)]
  | (k1, v1) :: rest => if k1 = k then (k, v) :: rest else (k1, v1) :: aset rest k v

/-- Go map delete `delete(l, k)`. -/
def adel {α : Type} (l : List (String × α)) (k : String) : List (String × α) :=
  match l with
  | [] => []
  | (k1, v1) :: rest => if k1 = k then adel rest k else (k1, v1) :: adel rest k

/-- `IsAIUser` from types.go: `len(userID) > 3 && userID[:3] == "ai_"`. -/
def IsAIUser (userID : String) : Bool :=
  userID.length > 3 && userID.take 3 == "ai_"

/-! ### Matcher (handler/matcher.go) -/

/-- The `Matcher` struct: waiting queue, user-state map, and the log of
`IncrementMatchCount` storage calls it issues. -/
structure Matcher where
  waitingUsers : List String
  userStates : List (String × UserState)
  incremented : List String
deriving DecidableEq, Repr

/-- `NewMatcher`: empty queue, empty state map. -/
def NewMatcher : Matcher := ⟨[], [], []⟩

/-- The result triple `(roomID, partnerID, matched)` of a matcher call. -/
structure MatchResult where
  roomID : String
  partnerID : String
  matched : Bool
deriving DecidableEq, Repr

/-- The pseudo-random partner selection of `RequestMatch`:
`waitingUsers[rand.Intn(len(waitingUsers))]`, with `rand.Intn` embedded as
the oracle `rnd` reduced modulo the queue length. -/
def selectPartner (l : List String) (rnd : Nat) : String :=
  l.getD (rnd % l.length) ""

/-- `Matcher.RequestMatch` from matcher.go.  The caller is marked `matching`;
an empty queue enqueues the caller and reports no match; otherwise a queue
index is drawn (`rand.Intn` embedded as `rnd % length`), self-pairing is
rejected, and on success the partner is removed from the queue, both sides
are marked `chatting`, both match counters are incremented, and the room id
is `userID + "-" + partnerID`. -/
def RequestMatch (m : Matcher) (userID : String) (rnd : Nat) :
    Matcher × MatchResult :=
  let m1 : Matcher := { m with userStates := aset m.userStates userID .matching }
  if m1.waitingUsers = [] then
    ({ m1 with waitingUsers := m1.waitingUsers ++ [userID] }, ⟨"", "", false⟩)
  else
    let idx := rnd % m1.waitingUsers.length
    let partnerID := selectPartner m1.waitingUsers rnd
    if partnerID = userID then
      (m1, ⟨"", "", false⟩)
    else
      let m2 : Matcher := { m1 with waitingUsers := m1.waitingUsers.eraseIdx idx }
      let m3 : Matcher := { m2 with userStates := aset m2.userStates userID .chatting }
      let m4 : Matcher := { m3 with userStates := aset m3.userStates partnerID .chatting }
      let m5 : Matcher := { m4 with incremented := m4.incremented ++ [userID, partnerID] }
      (m5, ⟨userID ++ "-" ++ partnerID, partnerID, true⟩)

/-- `Matcher.CheckUserState`: pure read of the state map. -/
def CheckUserState (m : Matcher) (userID : String) : Option UserState :=
  alookup m.userStates userID

/-- The queue-removal loop of `CancelMatch`: scan the queue and remove the
first occurrence of the user (the Go loop breaks after the first hit). -/
def removeFirst (l : List String) (userID : String) : List String :=
  match l with
  | [] => []
  | x :: rest => if x = userID then rest else x :: removeFirst rest userID

/-- `Matcher.CancelMatch` from matcher.go: drop the first queue occurrence of
the user, then unconditionally write `userStates[userID] = StateIdle`. -/
def CancelMatch (m : Matcher) (userID : String) : Matcher :=
  { m with
    waitingUsers := removeFirst m.waitingUsers userID
    userStates := aset m.userStates userID .idle }

/-- `Matcher.MatchWithAI` from matcher.go: the AI partner id is an oracle
(`GenerateAIUserID` is random); both sides are marked `chatting`, only the
human counter is incremented, the caller is filtered out of the queue, and
the room id is `userID + "-" + aiUserID`. -/
def MatchWithAI (m : Matcher) (userID : String) (aiUserID : String) :
    Matcher × MatchResult :=
  let m1 : Matcher := { m with userStates := aset m.userStates userID .chatting }
  let m2 : Matcher := { m1 with userStates := aset m1.userStates aiUserID .chatting }
  let m3 : Matcher := { m2 with incremented := m2.incremented ++ [userID] }
  let m4 : Matcher := { m3 with
    waitingUsers := m3.waitingUsers.filter (fun uid => uid ≠ userID) }
  (m4, ⟨userID ++ "-" ++ aiUserID, aiUserID, true⟩)

/-! ### Room manager and server globals (handler/room.go, handler/server.go)

`server.go` keeps package-level globals `matcher` and `roomManager`; the
room-table lock plus the matcher lock make every operation below one atomic
step, so the whole system is a state machine over `GlobalState`. -/

/-- The package globals of handler/server.go plus the storage-gateway logs:
the `Matcher`, the `RoomManager`s room table (`rooms map[string]*Room`), and
the ids passed to `CreateChatSession` / `EndChatSession`. -/
structure GlobalState where
  matcher : Matcher
  rooms : List (String × Room)
  createdSessions : List String
  endedSessions : List String
deriving DecidableEq, Repr

/-- `InitializeHandlers`: fresh matcher, empty room table. -/
def initialState : GlobalState := ⟨NewMatcher, [], [], []⟩

/-- `RoomManager.CreateRoom` from room.go: allocate a room with both
participants human and no connections, register it in the room table, and
record the `CreateChatSession` storage call.  (The relay goroutine
`room.Run` is embedded separately as `RunStep`.) -/
def CreateRoom (s : GlobalState) (roomID user1 user2 : String) : GlobalState :=
  let room : Room := ⟨roomID, [⟨user1, .human, none⟩, ⟨user2, .human, none⟩], false⟩
  { s with
    rooms := aset s.rooms roomID room
    createdSessions := s.createdSessions ++ [roomID] }

/-- `RoomManager.CreateAIRoom` from room.go: as `CreateRoom` but the second
participant is the AI user. -/
def CreateAIRoom (s : GlobalState) (roomID humanUser aiUser : String) :
    GlobalState :=
  let room : Room := ⟨roomID, [⟨humanUser, .human, none⟩, ⟨aiUser, .ai, none⟩], false⟩
  { s with
    rooms := aset s.rooms roomID room
    createdSessions := s.createdSessions ++ [roomID] }

/-- What `JoinRoom` hands to the spawned `handleMessages` goroutine: nothing
(room not found), or the result of the participant lookup — which is the Go
`nil` pointer (`none`) when the user is not in the room. -/
inductive Spawned where
  | noHandler
  | handler (user : Option User)
deriving DecidableEq, Repr

/-- `RoomManager.JoinRoom` from room.go: look the room up (silent no-op when
absent); look the participant up and, only if present, attach the connection;
then unconditionally start `handleMessages` with the looked-up participant —
even when that lookup failed. -/
def JoinRoom (s : GlobalState) (roomID userID : String) (conn : Nat) :
    GlobalState × Spawned :=
  match alookup s.rooms roomID with
  | none => (s, .noHandler)
  | some room =>
    match room.Users.find? (fun u => u.id == userID) with
    | some u =>
      let u1 : User := { u with conn := some conn }
      let room1 : Room :=
        { room with Users := room.Users.map (fun x => if x.id == userID then u1 else x) }
      ({ s with rooms := aset s.rooms roomID room1 }, .handler (some u1))
    | none => (s, .handler none)

/-- The first action of `RoomManager.handleMessages`: dereference
`user.Conn`.  When `JoinRoom` spawned the handler with a `nil` user pointer
(absent participant), this dereference is the reachable error branch; with a
present participant the read loop proceeds. -/
def handleMessagesEntry (user : Option User) : Except String Unit :=
  match user with
  | none => .error "nil pointer dereference: user.Conn"
  | some _ => .ok ()

/-- One write attempt of the relay loop: target participant and whether
`WriteJSON` succeeded (failures are only logged). -/
structure WriteAttempt where
  target : String
  ok : Bool
deriving DecidableEq, Repr

/-- One iteration of `Room.Run` from room.go, for one message consumed from
the relay channel: write the message to every participant other than the
sender that has a live connection, in participant order; `failing` says
which writes error.  The room itself is untouched by the loop. -/
def RunStep (room : Room) (msg : Message) (failing : String → Bool) :
    List WriteAttempt × Room :=
  ((room.Users.filter (fun u => u.id != msg.From && u.conn.isSome)).map
      (fun u => ⟨u.id, !failing u.id⟩),
   room)

/-- The participant set after `delete(room.Users, userID)` in `cleanupUser`. -/
def usersAfterDelete (room : Room) (userID : String) : List User :=
  room.Users.filter (fun u => u.id != userID)

/-- The `shouldCloseRoom` decision of `cleanupUser`: the room closes when no
participant remains, or exactly one remains and that one is the AI user. -/
def shouldCloseRoom (users1 : List User) : Bool :=
  users1.length == 0 ||
    (users1.length == 1 && users1.any (fun u => u.type == UserType.ai))

/-- `RoomManager.cleanupUser` from room.go, acting on the room object the
dead handler holds (`room`) and writing through to the table binding of
`room.ID` (in Go the binding is that same object).  Returns the new global
state, the mutated room object, and the ids notified with the
partner-left system message.  The channel is closed only under the
`rm.rooms[room.ID]` presence check that guards the Go `close`. -/
def cleanupUser (s : GlobalState) (room : Room) (userID : String) :
    GlobalState × Room × List String :=
  let notified :=
    (room.Users.filter (fun u => u.id != userID && u.conn.isSome)).map (fun u => u.id)
  let users1 := usersAfterDelete room userID
  let scr := shouldCloseRoom users1
  let inTable := (alookup s.rooms room.ID).isSome
  let room1 : Room :=
    { room with
      Users := users1
      chanClosed := room.chanClosed || (scr && inTable) }
  let ended1 :=
    if scr then s.endedSessions ++ [room.ID] else s.endedSessions
  let rooms1 :=
    if scr then adel s.rooms room.ID
    else if inTable then aset s.rooms room.ID room1 else s.rooms
  let states1 :=
    if IsAIUser userID then s.matcher.userStates
    else adel s.matcher.userStates userID
  ({ s with
      matcher := { s.matcher with userStates := states1 }
      rooms := rooms1
      endedSessions := ended1 },
   room1, notified)

/-- The pairing-request handler `match` from server.go.  When the caller is
recorded `chatting` it scans every room and every participant (embedded in
list order); a participant equal to the caller turns the response into a
match whose partner field is the first `"-"`-component of the room id, and
any other participant unconditionally overwrites the partner field.
Otherwise it delegates to `RequestMatch` and creates the room on success. -/
def scanUsers (reqUserID roomID : String) (users : List User)
    (resp : MatchResponse) : MatchResponse :=
  match users with
  | [] => resp
  | user :: rest =>
    if user.id = reqUserID then
      scanUsers reqUserID roomID rest
        { resp with
          Matched := true
          RoomID := roomID
          Partner := (roomID.splitOn "-").getD 0 "" }
    else
      scanUsers reqUserID roomID rest { resp with Partner := user.id }

/-- The outer room loop of the `chatting` branch of `match`. -/
def scanRooms (reqUserID : String) (rooms : List (String × Room))
    (resp : MatchResponse) : MatchResponse :=
  match rooms with
  | [] => resp
  | (_, room) :: rest => scanRooms reqUserID rest (scanUsers reqUserID room.ID room.Users resp)

/-- `match` from server.go (named `serverMatch`; `match` is a Lean keyword). -/
def serverMatch (s : GlobalState) (reqUserID : String) (rnd : Nat) :
    GlobalState × MatchResponse :=
  if CheckUserState s.matcher reqUserID = some .chatting then
    (s, scanRooms reqUserID s.rooms ⟨false, "", ""⟩)
  else
    let (m1, r) := RequestMatch s.matcher reqUserID rnd
    let s1 : GlobalState := { s with matcher := m1 }
    if r.matched then
      (CreateRoom s1 r.roomID reqUserID r.partnerID, ⟨r.matched, r.roomID, r.partnerID⟩)
    else
      (s1, ⟨r.matched, r.roomID, r.partnerID⟩)

/-! ### Operation traces -/

/-- The public operations of the `Matcher` component. -/
inductive MOp where
  | request (userID : String) (rnd : Nat)
  | cancel (userID : String)
  | matchAI (userID aiUserID : String)
deriving DecidableEq, Repr

/-- One matcher call, keeping the result where the call returns one. -/
def mstepR : Matcher → MOp → Matcher × Option MatchResult
  | m, .request userID rnd =>
    let (m1, r) := RequestMatch m userID rnd
    (m1, some r)
  | m, .cancel userID => (CancelMatch m userID, none)
  | m, .matchAI userID aiUserID =>
    let (m1, r) := MatchWithAI m userID aiUserID
    (m1, some r)

/-- One matcher call, state only. -/
def mstep (m : Matcher) (op : MOp) : Matcher := (mstepR m op).1

/-- Run a sequence of matcher calls from a given state. -/
def mrunFrom (m : Matcher) (ops : List MOp) : Matcher := ops.foldl mstep m

/-- Run a sequence of matcher calls from a fresh `Matcher`. -/
def mrun (ops : List MOp) : Matcher := mrunFrom NewMatcher ops

/-- The system-level operations reaching the matcher and the room manager:
a pairing request (`match` in server.go), an AI match (`MatchWithAI`
followed by `CreateAIRoom`, mirroring how `match` pairs `RequestMatch` with
`CreateRoom`), a websocket join, and a read-loop failure, which triggers
`cleanupUser` on the room the handler holds. -/
inductive SysOp where
  | matchReq (userID : String) (rnd : Nat)
  | matchAI (userID aiUserID : String)
  | join (roomID userID : String) (conn : Nat)
  | disconnect (roomID userID : String)
deriving DecidableEq, Repr

/-- One system step. -/
def sysStep : GlobalState → SysOp → GlobalState
  | s, .matchReq userID rnd => (serverMatch s userID rnd).1
  | s, .matchAI userID aiUserID =>
    let (m1, r) := MatchWithAI s.matcher userID aiUserID
    CreateAIRoom { s with matcher := m1 } r.roomID userID aiUserID
  | s, .join roomID userID conn => (JoinRoom s roomID userID conn).1
  | s, .disconnect roomID userID =>
    match alookup s.rooms roomID with
    | some room => (cleanupUser s room userID).1
    | none => s

/-- Run a sequence of system operations from the initialized server. -/
def sysRun (ops : List SysOp) : GlobalState := ops.foldl sysStep initialState

/-! ### Concrete states used to exercise the theorems -/

/-- A matcher with alice alone in the waiting queue. -/
def mDemo : Matcher := ⟨["alice"], [("alice", .matching)], []⟩

/-- A two-human room with both connections attached. -/
def roomAB : Room :=
  ⟨"alice-bob", [⟨"alice", .human, some 1⟩, ⟨"bob", .human, some 2⟩], false⟩

/-- The same room after alice already left: bob alone, still connected. -/
def roomBobOnly : Room := ⟨"alice-bob", [⟨"bob", .human, some 2⟩], false⟩

/-- A server state whose room table holds `roomAB`. -/
def stateAB : GlobalState :=
  ⟨⟨[], [("alice", .chatting), ("bob", .chatting)], []⟩,
   [("alice-bob", roomAB)], ["alice-bob"], []⟩

/-- A server state whose room table holds `roomBobOnly`. -/
def stateBobOnly : GlobalState :=
  ⟨⟨[], [("bob", .chatting)], []⟩,
   [("alice-bob", roomBobOnly)], ["alice-bob"], []⟩

/-- A message alice sends into `roomAB`. -/
def msgFromAlice : Message := ⟨"m1", "alice", "hi", "text", "alice-bob"⟩

/-- The trace refuting the "empty fields when unmatched" interface claim:
a human pairs with the AI assistant and disconnects — room torn down, but
the AI partner keeps its `chatting` entry — then carol and dave pair into a
live room.  A pairing request for the orphaned AI id then walks that room
and copies a stranger's id into the partner field of an unmatched reply. -/
def cexTrace : List SysOp :=
  [.matchAI "h" "ai_x", .disconnect "h-ai_x" "h",
   .matchReq "carol" 0, .matchReq "dave" 0]

/-! ### Map lemmas -/

theorem alookup_aset_self {α : Type} (l : List (String × α)) (k : String) (v : α) :
    alookup (aset l k v) k = some v := by
  induction l with
  | nil => simp [aset, alookup]
  | cons hd tl ih =>
    obtain ⟨k1, v1⟩ := hd
    by_cases h : k1 = k
    · simp [aset, h, alookup]
    · simp [aset, h, alookup, ih]

theorem alookup_aset_ne {α : Type} (l : List (String × α)) (k k1 : String) (v : α)
    (h : k1 ≠ k) : alookup (aset l k v) k1 = alookup l k1 := by
  have hkk1 : ¬ k = k1 := fun e => h e.symm
  induction l with
  | nil => simp [aset, alookup, hkk1]
  | cons hd tl ih =>
    obtain ⟨k2, v2⟩ := hd
    by_cases h2 : k2 = k
    · subst h2
      simp [aset, alookup, hkk1]
    · simp [aset, h2, alookup, ih]

theorem alookup_adel_self {α : Type} (l : List (String × α)) (k : String) :
    alookup (adel l k) k = none := by
  induction l with
  | nil => simp [adel, alookup]
  | cons hd tl ih =>
    obtain ⟨k1, v1⟩ := hd
    by_cases h : k1 = k
    · simp [adel, h, ih]
    · simp [adel, h, alookup, ih]

theorem alookup_adel_ne {α : Type} (l : List (String × α)) (k k1 : String)
    (h : k1 ≠ k) : alookup (adel l k) k1 = alookup l k1 := by
  have hkk1 : ¬ k = k1 := fun e => h e.symm
  induction l with
  | nil => simp [adel]
  | cons hd tl ih =>
    obtain ⟨k2, v2⟩ := hd
    by_cases h2 : k2 = k
    · subst h2
      simp [adel, alookup, ih, hkk1]
    · simp [adel, h2, alookup, ih]

theorem removeFirst_of_not_mem (l : List String) (u : String) (h : u ∉ l) :
    removeFirst l u = l := by
  induction l with
  | nil => rfl
  | cons x rest ih =>
    simp only [List.mem_cons, not_or] at h
    have hxu : ¬ x = u := fun e => h.1 e.symm
    simp [removeFirst, hxu, ih h.2]

theorem mem_removeFirst (l : List String) (u x : String)
    (h : x ∈ removeFirst l u) : x ∈ l := by
  induction l with
  | nil => simp [removeFirst] at h
  | cons y rest ih =>
    by_cases hy : y = u
    · simp only [removeFirst, if_pos hy] at h
      exact List.mem_cons_of_mem y h
    · simp only [removeFirst, if_neg hy, List.mem_cons] at h
      rcases h with h | h
      · exact h ▸ List.mem_cons_self y rest
      · exact List.mem_cons_of_mem y (ih h)

theorem length_removeFirst_le (l : List String) (u : String) :
    (removeFirst l u).length ≤ l.length := by
  induction l with
  | nil => simp [removeFirst]
  | cons y rest ih =>
    by_cases hy : y = u
    · simp only [removeFirst, if_pos hy, List.length_cons]
      omega
    · simp only [removeFirst, if_neg hy, List.length_cons]
      omega

theorem not_mem_removeFirst_of_short (l : List String) (u : String)
    (h : l.length ≤ 1) : u ∉ removeFirst l u := by
  match l with
  | [] => simp [removeFirst]
  | [x] =>
    by_cases hx : x = u
    · simp [removeFirst, hx]
    · have hux : ¬ u = x := fun e => hx e.symm
      simp [removeFirst, hx, hux]
  | x :: y :: rest => simp at h

/-! ### C1: no self-pairing -/

/-- C1: for every matcher state, caller, and random draw, `RequestMatch`
never reports a match whose partner is the caller itself; and whenever the
pseudo-randomly selected queue entry equals the caller, the call returns
`matched = false` with empty room and partner ids. -/
theorem requestMatch_no_self_pairing (m : Matcher) (userID : String) (rnd : Nat) :
    ((RequestMatch m userID rnd).2.matched = true →
      (RequestMatch m userID rnd).2.partnerID ≠ userID)
    ∧ (m.waitingUsers ≠ [] →
      selectPartner m.waitingUsers rnd = userID →
      (RequestMatch m userID rnd).2 = ⟨"", "", false⟩) := by
  by_cases hq : m.waitingUsers = []
  · constructor
    · intro hmatched
      simp [RequestMatch, hq] at hmatched
    · intro hne
      exact absurd hq hne
  · by_cases hp : selectPartner m.waitingUsers rnd = userID
    · constructor
      · intro hmatched
        simp [RequestMatch, hq, hp] at hmatched
      · intro _ _
        simp [RequestMatch, hq, hp]
    · constructor
      · intro _
        simp [RequestMatch, hq, hp]
      · intro _ hsel
        exact absurd hsel hp

/-- Witness for C1 at a concrete input: with alice waiting, a request by
alice selects alice and is rejected; a request by bob matches alice ≠ bob. -/
theorem requestMatch_no_self_pairing_witness :
    (RequestMatch mDemo "bob" 0).2.partnerID ≠ "bob"
    ∧ (RequestMatch mDemo "alice" 0).2 = ⟨"", "", false⟩ := by
  constructor
  · exact (requestMatch_no_self_pairing mDemo "bob" 0).1 (by decide)
  · exact (requestMatch_no_self_pairing mDemo "alice" 0).2 (by decide) (by decide)

/-! ### C2: successful pairing -/

/-- C2: when the waiting queue is non-empty and the selected entry differs
from the caller, `RequestMatch` removes exactly that entry from the queue,
marks both the caller and the partner `chatting` in the same step, and
returns a match whose room id is caller-dash-partner and whose partner id is
the selected entry. -/
theorem requestMatch_success (m : Matcher) (userID : String) (rnd : Nat)
    (hne : m.waitingUsers ≠ [])
    (hp : selectPartner m.waitingUsers rnd ≠ userID) :
    (RequestMatch m userID rnd).2 =
      ⟨userID ++ "-" ++ selectPartner m.waitingUsers rnd,
        selectPartner m.waitingUsers rnd, true⟩
    ∧ (RequestMatch m userID rnd).1.waitingUsers =
      m.waitingUsers.eraseIdx (rnd % m.waitingUsers.length)
    ∧ CheckUserState (RequestMatch m userID rnd).1 userID = some .chatting
    ∧ CheckUserState (RequestMatch m userID rnd).1
        (selectPartner m.waitingUsers rnd) = some .chatting := by
  have hq : ¬ m.waitingUsers = [] := hne
  refine ⟨?_, ?_, ?_, ?_⟩
  · simp [RequestMatch, hq, hp]
  · simp [RequestMatch, hq, hp]
  · have hup : userID ≠ selectPartner m.waitingUsers rnd := fun e => hp e.symm
    simp only [RequestMatch, CheckUserState, if_neg hq, if_neg hp]
    rw [alookup_aset_ne _ _ _ _ hup, alookup_aset_self]
  · simp only [RequestMatch, CheckUserState, if_neg hq, if_neg hp]
    rw [alookup_aset_self]

/-- Witness for C2 at a concrete input: bob requests while alice waits. -/
theorem requestMatch_success_witness :
    (RequestMatch mDemo "bob" 0).2 = ⟨"bob-alice", "alice", true⟩
    ∧ (RequestMatch mDemo "bob" 0).1.waitingUsers = []
    ∧ CheckUserState (RequestMatch mDemo "bob" 0).1 "bob" = some .chatting
    ∧ CheckUserState (RequestMatch mDemo "bob" 0).1 "alice" = some .chatting := by
  obtain ⟨h1, h2, h3, h4⟩ := requestMatch_success mDemo "bob" 0 (by decide) (by decide)
  have e : selectPartner mDemo.waitingUsers 0 = "alice" := by decide
  rw [e] at h1 h4
  refine ⟨?_, h2, h3, h4⟩
  rw [h1]
  decide

/-! ### C6: the waiting queue never holds more than one user -/

theorem selectPartner_mem (l : List String) (rnd : Nat) (h : l ≠ []) :
    selectPartner l rnd ∈ l := by
  have hpos : 0 < l.length := List.length_pos.mpr h
  have hlt : rnd % l.length < l.length := Nat.mod_lt _ hpos
  rw [selectPartner, List.getD_eq_getElem l "" hlt]
  exact List.getElem_mem hlt

theorem requestMatch_waiting_le (m : Matcher) (userID : String) (rnd : Nat)
    (h : m.waitingUsers.length ≤ 1) :
    (RequestMatch m userID rnd).1.waitingUsers.length ≤ 1 := by
  by_cases hq : m.waitingUsers = []
  · simp [RequestMatch, hq]
  · by_cases hp : selectPartner m.waitingUsers rnd = userID
    · simpa [RequestMatch, hq, hp] using h
    · simp only [RequestMatch, if_neg hq, if_neg hp]
      exact le_trans (List.length_eraseIdx_le _ _) h

theorem mstep_waiting_le (m : Matcher) (op : MOp)
    (h : m.waitingUsers.length ≤ 1) : (mstep m op).waitingUsers.length ≤ 1 := by
  cases op with
  | request userID rnd =>
    simpa [mstep, mstepR] using requestMatch_waiting_le m userID rnd h
  | cancel userID =>
    simp only [mstep, mstepR, CancelMatch]
    exact le_trans (length_removeFirst_le _ _) h
  | matchAI userID aiUserID =>
    simp only [mstep, mstepR, MatchWithAI]
    exact le_trans (List.length_filter_le _ _) h

theorem mrunFrom_waiting_le (m : Matcher) (ops : List MOp)
    (h : m.waitingUsers.length ≤ 1) :
    (mrunFrom m ops).waitingUsers.length ≤ 1 := by
  induction ops generalizing m with
  | nil => exact h
  | cons op rest ih => exact ih (mstep m op) (mstep_waiting_le m op h)

/-- C6: in every matcher state reachable from a fresh `Matcher` by
`RequestMatch`, `CancelMatch`, and `MatchWithAI` calls, the waiting queue
holds at most one user id: enqueueing happens only into an empty queue and
every other path only removes entries. -/
theorem waiting_queue_at_most_one (ops : List MOp) :
    (mrun ops).waitingUsers.length ≤ 1 :=
  mrunFrom_waiting_le NewMatcher ops (by decide)

/-! ### C7: a cancelled user cannot be handed out as a partner -/

theorem requestMatch_partner_mem (m : Matcher) (userID : String) (rnd : Nat)
    (h : (RequestMatch m userID rnd).2.matched = true) :
    (RequestMatch m userID rnd).2.partnerID ∈ m.waitingUsers := by
  by_cases hq : m.waitingUsers = []
  · simp [RequestMatch, hq] at h
  · by_cases hp : selectPartner m.waitingUsers rnd = userID
    · simp [RequestMatch, hq, hp] at h
    · simp only [RequestMatch, if_neg hq, if_neg hp]
      exact selectPartner_mem m.waitingUsers rnd hq

theorem mstep_not_mem_waiting (m : Matcher) (op : MOp) (u : String)
    (h : u ∉ m.waitingUsers) (hop : ∀ rnd, op ≠ .request u rnd) :
    u ∉ (mstep m op).waitingUsers := by
  cases op with
  | request v rnd =>
    have hvu : ¬ u = v := by
      intro e
      exact hop rnd (by rw [e])
    by_cases hq : m.waitingUsers = []
    · simp [mstep, mstepR, RequestMatch, hq, hvu]
    · by_cases hp : selectPartner m.waitingUsers rnd = v
      · simpa [mstep, mstepR, RequestMatch, hq, hp] using h
      · simp only [mstep, mstepR, RequestMatch, if_neg hq, if_neg hp]
        intro hmem
        exact h ((List.eraseIdx_sublist _ _).mem hmem)
  | cancel v =>
    simp only [mstep, mstepR, CancelMatch]
    intro hmem
    exact h (mem_removeFirst _ _ _ hmem)
  | matchAI v aiUserID =>
    simp only [mstep, mstepR, MatchWithAI]
    intro hmem
    exact h (List.mem_of_mem_filter hmem)

theorem mrunFrom_not_mem_waiting (m : Matcher) (ops : List MOp) (u : String)
    (h : u ∉ m.waitingUsers)
    (hops : ∀ op ∈ ops, ∀ rnd, op ≠ MOp.request u rnd) :
    u ∉ (mrunFrom m ops).waitingUsers := by
  induction ops generalizing m with
  | nil => exact h
  | cons op rest ih =>
    exact ih (mstep m op)
      (mstep_not_mem_waiting m op u h (hops op (List.mem_cons_self op rest)))
      (fun op2 hop2 => hops op2 (List.mem_cons_of_mem op hop2))

theorem not_mem_waiting_after_cancel (pre : List MOp) (u : String) :
    u ∉ (CancelMatch (mrun pre) u).waitingUsers := by
  have hlen := mrunFrom_waiting_le NewMatcher pre (by decide)
  simp only [CancelMatch]
  exact not_mem_removeFirst_of_short _ _ hlen

/-- C7: starting from any reachable matcher state, after `CancelMatch u`
and along any further calls that include no new `RequestMatch` by `u`, no
`RequestMatch` call by anyone returns a match whose partner is `u`. -/
theorem cancel_excludes_user_from_pairing (pre : List MOp) (u : String)
    (ops : List MOp) (hops : ∀ op ∈ ops, ∀ rnd, op ≠ MOp.request u rnd)
    (i : Nat) (v : String) (rnd : Nat)
    (hi : ops.get? i = some (.request v rnd))
    (hm : (RequestMatch (mrunFrom (CancelMatch (mrun pre) u) (ops.take i))
      v rnd).2.matched = true) :
    (RequestMatch (mrunFrom (CancelMatch (mrun pre) u) (ops.take i))
      v rnd).2.partnerID ≠ u := by
  have h0 : u ∉ (CancelMatch (mrun pre) u).waitingUsers :=
    not_mem_waiting_after_cancel pre u
  have htake : ∀ op ∈ ops.take i, ∀ r, op ≠ MOp.request u r :=
    fun op hop => hops op (List.take_subset i ops hop)
  have hst : u ∉ (mrunFrom (CancelMatch (mrun pre) u) (ops.take i)).waitingUsers :=
    mrunFrom_not_mem_waiting _ _ _ h0 htake
  have hpm := requestMatch_partner_mem _ v rnd hm
  intro e
  rw [e] at hpm
  exact hst hpm

/-- Witness for C7 at a concrete trace: alice cancels, bob then enqueues,
and carol's request pairs her with bob — not with the cancelled alice. -/
theorem cancel_excludes_user_from_pairing_witness :
    (RequestMatch (mrunFrom (CancelMatch (mrun []) "alice")
        ([MOp.request "bob" 0, MOp.request "carol" 0].take 1))
      "carol" 0).2.partnerID ≠ "alice" := by
  refine cancel_excludes_user_from_pairing [] "alice"
    [MOp.request "bob" 0, MOp.request "carol" 0] ?_ 1 "carol" 0 (by decide) (by decide)
  intro op hop r
  rcases List.mem_cons.mp hop with h | hop2
  · subst h
    simp
  · rcases List.mem_cons.mp hop2 with h | h3
    · subst h
      simp
    · simp at h3

/-! ### C8: CancelMatch behaviour -/

/-- C8 counterexample: on a fresh matcher, `CancelMatch` for a user with no
state entry does NOT leave the user-state map unchanged — it creates an
`idle` entry (`m.userStates[userID] = StateIdle` runs unconditionally). -/
theorem cancelMatch_not_stateless :
    CheckUserState NewMatcher "alice" = none
    ∧ CheckUserState (CancelMatch NewMatcher "alice") "alice" = some UserState.idle
    ∧ (CancelMatch NewMatcher "alice").userStates ≠ NewMatcher.userStates := by
  decide

theorem removeFirst_eq_eraseIdx_indexOf (l : List String) (u : String)
    (h : u ∈ l) : removeFirst l u = l.eraseIdx (l.indexOf u) := by
  induction l with
  | nil => cases h
  | cons x rest ih =>
    by_cases hx : x = u
    · subst hx
      rw [List.indexOf_cons_self]
      simp [removeFirst]
    · have hur : u ∈ rest := by
        rcases List.mem_cons.mp h with he | he
        · exact absurd he.symm hx
        · exact he
      rw [List.indexOf_cons_ne rest hx]
      simp only [removeFirst, if_neg hx, List.eraseIdx_cons_succ]
      rw [ih hur]

/-- C8 (amended): `CancelMatch` removes the user's first waiting-queue
occurrence when the user is waiting, leaves the queue untouched when not,
and never touches other users' states; but the user-state map always
records `idle` for the cancelled user, creating the entry if absent. -/
theorem cancelMatch_spec (m : Matcher) (userID : String) :
    (userID ∈ m.waitingUsers →
      (CancelMatch m userID).waitingUsers =
        m.waitingUsers.eraseIdx (m.waitingUsers.indexOf userID))
    ∧ (userID ∉ m.waitingUsers →
      (CancelMatch m userID).waitingUsers = m.waitingUsers)
    ∧ CheckUserState (CancelMatch m userID) userID = some UserState.idle
    ∧ ∀ v, v ≠ userID →
      CheckUserState (CancelMatch m userID) v = CheckUserState m v := by
  refine ⟨?_, ?_, ?_, ?_⟩
  · intro hq
    simp only [CancelMatch]
    exact removeFirst_eq_eraseIdx_indexOf _ _ hq
  · intro hnq
    simp only [CancelMatch]
    exact removeFirst_of_not_mem _ _ hnq
  · simp only [CancelMatch, CheckUserState]
    exact alookup_aset_self _ _ _
  · intro v hv
    simp only [CancelMatch, CheckUserState]
    exact alookup_aset_ne _ _ _ _ hv

/-- Witness for C8 (amended) at concrete inputs: cancelling the waiting
alice removes her first (only) queue occurrence; cancelling the non-waiting
bob leaves the queue alone, records bob idle, and does not touch alice. -/
theorem cancelMatch_spec_witness :
    (CancelMatch mDemo "alice").waitingUsers =
      mDemo.waitingUsers.eraseIdx (mDemo.waitingUsers.indexOf "alice")
    ∧ (CancelMatch mDemo "bob").waitingUsers = mDemo.waitingUsers
    ∧ CheckUserState (CancelMatch mDemo "bob") "bob" = some UserState.idle
    ∧ CheckUserState (CancelMatch mDemo "bob") "alice" = CheckUserState mDemo "alice" := by
  refine ⟨(cancelMatch_spec mDemo "alice").1 (by decide),
    (cancelMatch_spec mDemo "bob").2.1 (by decide),
    (cancelMatch_spec mDemo "bob").2.2.1,
    (cancelMatch_spec mDemo "bob").2.2.2 "alice" (by decide)⟩

/-! ### C9: JoinRoom does not admit outsiders -/

/-- C9: joining an existing room with a user id that is not in its
participant set changes nothing: the participant set, every existing entry
and every attached connection stay exactly as they were (the global state is
returned untouched). -/
theorem joinRoom_nonmember_noop (s : GlobalState) (roomID userID : String)
    (conn : Nat) (room : Room)
    (hroom : alookup s.rooms roomID = some room)
    (habs : userID ∉ room.Users.map User.id) :
    (JoinRoom s roomID userID conn).1 = s := by
  have hfind : room.Users.find? (fun u => u.id == userID) = none := by
    rw [List.find?_eq_none]
    intro u hu
    simp only [beq_iff_eq]
    intro e
    exact habs (e ▸ List.mem_map_of_mem User.id hu)
  simp [JoinRoom, hroom, hfind]

/-- Witness for C9 at a concrete input: carol against alice and bob's room. -/
theorem joinRoom_nonmember_noop_witness :
    (JoinRoom stateAB "alice-bob" "carol" 7).1 = stateAB :=
  joinRoom_nonmember_noop stateAB "alice-bob" "carol" 7 roomAB (by decide) (by decide)

/-! ### C10: the spawned handler dereferences a missing participant -/

/-- C10: at the public JoinRoom interface, an existing room id together with
a user id outside its participant set still spawns the per-connection
handler, and it is spawned with the failed lookup result (Go nil pointer);
the handler's first action dereferences that missing participant's
connection without any guard, so its error branch is reachable rather than
the call being a harmless no-op. -/
theorem joinRoom_absent_user_spawns_nil_handler :
    (JoinRoom stateAB "alice-bob" "carol" 7).2 = Spawned.handler none
    ∧ handleMessagesEntry none =
      Except.error "nil pointer dereference: user.Conn" := by
  constructor
  · decide
  · rfl

/-! ### C4: relay fan-out -/

theorem countP_id_eq_one (l : List User) (u : User)
    (hnd : (l.map User.id).Nodup) (hu : u ∈ l) :
    l.countP (fun x => x.id == u.id) = 1 := by
  induction l with
  | nil => simp at hu
  | cons x rest ih =>
    simp only [List.map_cons, List.nodup_cons] at hnd
    rcases List.mem_cons.mp hu with h | h
    · subst h
      rw [List.countP_cons]
      have h0 : rest.countP (fun y => y.id == u.id) = 0 := by
        rw [List.countP_eq_zero]
        intro a ha
        simp only [beq_iff_eq]
        intro e
        exact hnd.1 (e ▸ List.mem_map_of_mem User.id ha)
      simp [h0]
    · rw [List.countP_cons]
      have hxne : (x.id == u.id) = false := by
        simp only [beq_eq_false_iff_ne, ne_eq]
        intro e
        exact hnd.1 (e ▸ List.mem_map_of_mem User.id h)
      rw [ih hnd.2 h, hxne]
      simp

/-- C4: for a message consumed from the relay channel, one iteration of the
room's broadcast loop attempts the write exactly once for each participant
of this room other than the sender that has a live connection — regardless
of which writes fail — every write targets a member of this room only, and
the loop neither retries nor removes anyone: the room comes out unchanged. -/
theorem runStep_fanout (room : Room) (msg : Message) (failing : String → Bool)
    (hnd : (room.Users.map User.id).Nodup) :
    (∀ u ∈ room.Users, u.id ≠ msg.From → u.conn.isSome →
      (RunStep room msg failing).1.countP (fun w => w.target == u.id) = 1)
    ∧ (∀ w ∈ (RunStep room msg failing).1, w.target ∈ room.Users.map User.id)
    ∧ (RunStep room msg failing).2 = room := by
  refine ⟨?_, ?_, rfl⟩
  · intro u hu hne hconn
    have hp : (fun x : User => x.id != msg.From && x.conn.isSome) u = true := by
      simp [hne, hconn]
    have hufil : u ∈ room.Users.filter (fun x => x.id != msg.From && x.conn.isSome) :=
      List.mem_filter.mpr ⟨hu, hp⟩
    have hndfil :
        ((room.Users.filter (fun x => x.id != msg.From && x.conn.isSome)).map
          User.id).Nodup :=
      ((List.filter_sublist _).map User.id).nodup hnd
    show ((room.Users.filter (fun x => x.id != msg.From && x.conn.isSome)).map
        (fun x => (⟨x.id, !failing x.id⟩ : WriteAttempt))).countP
        (fun w => w.target == u.id) = 1
    rw [List.countP_map]
    exact countP_id_eq_one _ u hndfil hufil
  · intro w hw
    simp only [RunStep, List.mem_map] at hw
    obtain ⟨x, hx, hxw⟩ := hw
    have : w.target = x.id := by rw [← hxw]
    rw [this]
    exact List.mem_map_of_mem User.id (List.mem_of_mem_filter hx)

/-- Witness for C4 at a concrete input: alice's message in the two-party
room reaches bob exactly once even when the write to bob fails, and the room
is unchanged. -/
theorem runStep_fanout_witness :
    (RunStep roomAB msgFromAlice (fun _ => true)).1.countP
      (fun w => w.target == "bob") = 1
    ∧ (RunStep roomAB msgFromAlice (fun _ => true)).2 = roomAB := by
  obtain ⟨h1, h2, h3⟩ := runStep_fanout roomAB msgFromAlice (fun _ => true) (by decide)
  refine ⟨?_, h3⟩
  exact h1 ⟨"bob", UserType.human, some 2⟩ (by decide) (by decide) (by decide)

/-! ### C3: cleanup on disconnect -/

/-- C3: for a registered room and a disconnecting participant, cleanup
removes that participant from the participant set; if the room is then left
with zero participants, or exactly one participant who is synthetic, the
relay channel is closed, the room is removed from the room table, the
session record is closed, and a subsequent `JoinRoom` against the removed
room id is a no-op that spawns nothing; and for a human (non-AI id)
disconnecter the user-registry entry is removed. -/
theorem cleanupUser_spec (s : GlobalState) (room : Room) (userID : String)
    (hroom : alookup s.rooms room.ID = some room) :
    (cleanupUser s room userID).2.1.Users =
      room.Users.filter (fun u => u.id != userID)
    ∧ (((cleanupUser s room userID).2.1.Users = [] ∨
        (∃ w, (cleanupUser s room userID).2.1.Users = [w] ∧ w.type = UserType.ai)) →
      (cleanupUser s room userID).2.1.chanClosed = true
      ∧ alookup (cleanupUser s room userID).1.rooms room.ID = none
      ∧ room.ID ∈ (cleanupUser s room userID).1.endedSessions
      ∧ ∀ v c, JoinRoom (cleanupUser s room userID).1 room.ID v c =
          ((cleanupUser s room userID).1, Spawned.noHandler))
    ∧ (IsAIUser userID = false →
      alookup (cleanupUser s room userID).1.matcher.userStates userID = none) := by
  have husers : (cleanupUser s room userID).2.1.Users = usersAfterDelete room userID := rfl
  refine ⟨husers, ?_, ?_⟩
  · intro hclose
    rw [husers] at hclose
    have hscr : shouldCloseRoom (usersAfterDelete room userID) = true := by
      rcases hclose with h1 | ⟨w, hw, hai⟩
      · rw [shouldCloseRoom, h1]
        rfl
      · rw [shouldCloseRoom, hw]
        simp [hai]
    have hin : (alookup s.rooms room.ID).isSome = true := by
      rw [hroom]
      rfl
    have hrooms : (cleanupUser s room userID).1.rooms = adel s.rooms room.ID := by
      simp [cleanupUser, hscr]
    have hnone : alookup (cleanupUser s room userID).1.rooms room.ID = none := by
      rw [hrooms]
      exact alookup_adel_self _ _
    refine ⟨?_, hnone, ?_, ?_⟩
    · have hcc : (cleanupUser s room userID).2.1.chanClosed =
          (room.chanClosed || (shouldCloseRoom (usersAfterDelete room userID) &&
            (alookup s.rooms room.ID).isSome)) := rfl
      rw [hcc, hscr, hin]
      simp
    · have hes : (cleanupUser s room userID).1.endedSessions =
          (if shouldCloseRoom (usersAfterDelete room userID) then
            s.endedSessions ++ [room.ID] else s.endedSessions) := rfl
      rw [hes, hscr]
      simp
    · intro v c
      simp [JoinRoom, hnone]
  · intro hhum
    have hst : (cleanupUser s room userID).1.matcher.userStates =
        (if IsAIUser userID then s.matcher.userStates
          else adel s.matcher.userStates userID) := rfl
    rw [hst, hhum]
    simp [alookup_adel_self]

/-- Witness for C3 at a concrete input: bob, last human in his room,
disconnects; the room closes, the table entry and bob's registry entry go
away, and a re-join attempt spawns nothing. -/
theorem cleanupUser_spec_witness :
    (cleanupUser stateBobOnly roomBobOnly "bob").2.1.Users = []
    ∧ (cleanupUser stateBobOnly roomBobOnly "bob").2.1.chanClosed = true
    ∧ alookup (cleanupUser stateBobOnly roomBobOnly "bob").1.rooms "alice-bob" = none
    ∧ "alice-bob" ∈ (cleanupUser stateBobOnly roomBobOnly "bob").1.endedSessions
    ∧ JoinRoom (cleanupUser stateBobOnly roomBobOnly "bob").1 "alice-bob" "carol" 9 =
        ((cleanupUser stateBobOnly roomBobOnly "bob").1, Spawned.noHandler)
    ∧ alookup (cleanupUser stateBobOnly roomBobOnly "bob").1.matcher.userStates "bob" =
        none := by
  obtain ⟨h1, h2, h3⟩ := cleanupUser_spec stateBobOnly roomBobOnly "bob" (by decide)
  have hu : (cleanupUser stateBobOnly roomBobOnly "bob").2.1.Users = [] := by
    rw [h1]
    decide
  obtain ⟨hc, hn, he, hj⟩ := h2 (Or.inl hu)
  exact ⟨hu, hc, hn, he, hj "carol" 9, h3 (by decide)⟩

/-! ### C5: fields of an unmatched pairing response -/

theorem requestMatch_unmatched_empty (m : Matcher) (userID : String) (rnd : Nat)
    (h : (RequestMatch m userID rnd).2.matched = false) :
    (RequestMatch m userID rnd).2.roomID = ""
    ∧ (RequestMatch m userID rnd).2.partnerID = "" := by
  by_cases hq : m.waitingUsers = []
  · simp [RequestMatch, hq]
  · by_cases hp : selectPartner m.waitingUsers rnd = userID
    · simp [RequestMatch, hq, hp]
    · simp [RequestMatch, hq, hp] at h

theorem scanUsers_matched_mono (reqUserID roomID : String) (users : List User)
    (resp : MatchResponse) (h : resp.Matched = true) :
    (scanUsers reqUserID roomID users resp).Matched = true := by
  induction users generalizing resp with
  | nil => exact h
  | cons u rest ih =>
    by_cases he : u.id = reqUserID
    · simp only [scanUsers, if_pos he]
      exact ih _ rfl
    · simp only [scanUsers, if_neg he]
      exact ih _ h

theorem scanUsers_matched_of_mem (reqUserID roomID : String) (users : List User)
    (resp : MatchResponse) (h : reqUserID ∈ users.map User.id) :
    (scanUsers reqUserID roomID users resp).Matched = true := by
  induction users generalizing resp with
  | nil => simp at h
  | cons u rest ih =>
    by_cases he : u.id = reqUserID
    · simp only [scanUsers, if_pos he]
      exact scanUsers_matched_mono _ _ _ _ rfl
    · simp only [scanUsers, if_neg he]
      apply ih
      simp only [List.map_cons, List.mem_cons] at h
      rcases h with h | h
      · exact absurd h.symm he
      · exact h

theorem scanRooms_matched_mono (reqUserID : String) (rooms : List (String × Room))
    (resp : MatchResponse) (h : resp.Matched = true) :
    (scanRooms reqUserID rooms resp).Matched = true := by
  induction rooms generalizing resp with
  | nil => exact h
  | cons q rest ih =>
    obtain ⟨rid, room⟩ := q
    simp only [scanRooms]
    exact ih _ (scanUsers_matched_mono _ _ _ _ h)

theorem scanRooms_matched_of_mem (reqUserID : String)
    (rooms : List (String × Room)) (resp : MatchResponse)
    (p : String × Room) (hp : p ∈ rooms)
    (hmem : reqUserID ∈ p.2.Users.map User.id) :
    (scanRooms reqUserID rooms resp).Matched = true := by
  induction rooms generalizing resp with
  | nil => cases hp
  | cons q rest ih =>
    obtain ⟨rid, room⟩ := q
    rcases List.mem_cons.mp hp with h | h
    · simp only [scanRooms]
      apply scanRooms_matched_mono
      apply scanUsers_matched_of_mem
      rw [h] at hmem
      exact hmem
    · simp only [scanRooms]
      exact ih _ h

/-- C5 counterexample: along a trace of the system's own operations — a
human pairs with the AI assistant, disconnects (tearing the room down but
leaving the assistant's `chatting` entry), and carol and dave then pair —
the pairing request for the orphaned assistant id produces
`matched = false` with a NON-empty `partner_id` (it picks up a participant
of carol and dave's room), refuting the claim that both fields are empty
whenever `matched = false`. -/
theorem serverMatch_leaks_partner :
    (serverMatch (sysRun cexTrace) "ai_x" 0).2.Matched = false
    ∧ (serverMatch (sysRun cexTrace) "ai_x" 0).2.Partner = "carol" := by
  decide

/-- C5 (amended): whenever the pairing-request output has
`matched = false`, the `room_id` field is empty, and — provided the caller,
if recorded `chatting`, is a member of some room in the table (true in all
states reachable without the AI-match path) — the `partner_id` field is
empty as well. -/
theorem serverMatch_unmatched_fields (s : GlobalState) (reqUserID : String)
    (rnd : Nat)
    (hinv : CheckUserState s.matcher reqUserID = some UserState.chatting →
      ∃ p ∈ s.rooms, reqUserID ∈ p.2.Users.map User.id)
    (hm : (serverMatch s reqUserID rnd).2.Matched = false) :
    (serverMatch s reqUserID rnd).2.RoomID = ""
    ∧ (serverMatch s reqUserID rnd).2.Partner = "" := by
  by_cases hc : CheckUserState s.matcher reqUserID = some UserState.chatting
  · exfalso
    obtain ⟨p, hp, hmem⟩ := hinv hc
    have htrue : (serverMatch s reqUserID rnd).2.Matched = true := by
      simp only [serverMatch, if_pos hc]
      exact scanRooms_matched_of_mem _ _ _ p hp hmem
    rw [htrue] at hm
    cases hm
  · rcases hRM : RequestMatch s.matcher reqUserID rnd with ⟨m1, r⟩
    have hempty := requestMatch_unmatched_empty s.matcher reqUserID rnd
    rw [hRM] at hempty
    simp only [serverMatch, if_neg hc, hRM] at hm ⊢
    by_cases hr : r.matched = true
    · simp [hr] at hm
    · have hrf : r.matched = false := by
        revert hr
        cases r.matched <;> simp
      obtain ⟨h1, h2⟩ := hempty hrf
      simp [hrf]
      exact ⟨h1, h2⟩

/-- Witness for C5 (amended) at a concrete input: the very first request on
a fresh server is unmatched with both fields empty. -/
theorem serverMatch_unmatched_fields_witness :
    (serverMatch initialState "alice" 0).2.RoomID = ""
    ∧ (serverMatch initialState "alice" 0).2.Partner = "" :=
  serverMatch_unmatched_fields initialState "alice" 0 (by decide) (by decide)

end ChatMatcher
